import Mathlib

/-!
Verification of the thread-lifecycle core (kernel_threads.c) of a
tinyos-style kernel.  The data model and the five operations
(CreateThread / ThreadSelf / ThreadJoin / ThreadDetach / ThreadExit)
are shallowly embedded: PTCBs live in a heap keyed by their address
(a natural number, the externally visible Tid), PCBs live in a process
table keyed by pid, and every operation is a pure function on this
state.  All code runs under a single global kernel lock, so each
operation (and each segment of ThreadJoin between blocking points) is
an atomic state transformer; blocking inside ThreadJoin is modelled by
splitting the function at its kernel_wait call.
-/

namespace TinyosThreads

/-- Association-list lookup by key: the first binding wins.  Models a
pointer dereference / table lookup. -/
def alist_get {α : Type} : List (Nat × α) → Nat → Option α
  | [], _ => none
  | (a, v) :: rest, k => if a = k then some v else alist_get rest k

/-- Overwrite the value stored at a key, when present (in-place update
through a pointer). -/
def alist_set {α : Type} : List (Nat × α) → Nat → α → List (Nat × α)
  | [], _, _ => []
  | (a, w) :: rest, k, v =>
    if a = k then (a, v) :: rest else (a, w) :: alist_set rest k v

/-- Apply a function to the value stored at a key, when present. -/
def alist_mod {α : Type} : List (Nat × α) → Nat → (α → α) → List (Nat × α)
  | [], _, _ => []
  | (a, w) :: rest, k, f =>
    if a = k then (a, f w) :: rest else (a, w) :: alist_mod rest k f

/-- Remove the binding of a key (deallocation). -/
def alist_erase {α : Type} : List (Nat × α) → Nat → List (Nat × α)
  | [], _ => []
  | (a, w) :: rest, k =>
    if a = k then alist_erase rest k else (a, w) :: alist_erase rest k

/-- Per-Thread Control Block: join/detach/exit bookkeeping of one
thread, fields as in the PTCB struct used by kernel_threads.c. -/
structure PTCB where
  exited : Bool
  detached : Bool
  exitval : Int
  refcount : Int
deriving Repr, DecidableEq, Inhabited

/-- Process state: a PCB becomes ZOMBIE when its last thread exits. -/
inductive PState
  | ALIVE
  | ZOMBIE
deriving Repr, DecidableEq, Inhabited

/-- Process Control Block: the fields of the PCB that
kernel_threads.c reads or writes.  Lists of keys model the intrusive
rlists (children_list / exited_list hold pids, ptcb_list holds Tids);
`args` records whether an argument buffer is still allocated, `fidt`
records which file-table slots are non-NULL. -/
structure PCB where
  parent : Nat
  children_list : List Nat
  exited_list : List Nat
  ptcb_list : List Nat
  thread_count : Int
  args : Bool
  fidt : List Bool
  main_thread : Bool
  pstate : PState
deriving Repr, DecidableEq, Inhabited

/-- Whole-kernel state: the process table (keyed by pid) and the heap
of live PTCBs (keyed by their address, i.e. the Tid). -/
structure Sys where
  procs : List (Nat × PCB)
  heap : List (Nat × PTCB)
deriving Repr, DecidableEq, Inhabited

/-- Observable events: condition-variable broadcasts and the writes of
sys_ThreadExit, in program order. -/
inductive Ev
  | writeExitval (t : Nat) (v : Int)
  | setExited (t : Nat)
  | bcastExitCv (t : Nat)
  | bcastChildExit (pid : Nat)
  | sleepExited
deriving Repr, DecidableEq

/-- Abnormal outcomes of sys_ThreadExit: a failed assert() is fatal,
`diverge` marks a non-terminating loop, `ub` a dereference of a
dangling pointer. -/
inductive Abnormal
  | assertFail
  | diverge
  | ub
deriving Repr, DecidableEq

/-- Modelled from the spec: the list utility's is-empty test
(is_rlist_empty, an external collaborator of this core) returns
whether the intrusive list has no element. -/
def is_rlist_empty (l : List Nat) : Bool := l.isEmpty

/-- Modelled from the spec: rlist_find searches the list for the node
whose key equals the given PTCB pointer; here, membership of the Tid. -/
def rlist_find (l : List Nat) (k : Nat) : Bool := l.contains k

/-- Modelled from the spec: rlist_remove unlinks the (unique) node of
the given key from the list that contains it. -/
def rlist_remove (l : List Nat) (k : Nat) : List Nat := l.erase k

/-- Modelled from the spec: increase_refcount registers one more
interested joiner on the PTCB. -/
def increase_refcount (p : PTCB) : PTCB := { p with refcount := p.refcount + 1 }

/-- Modelled from the spec: decrease_refcount drops one interested
joiner from the PTCB. -/
def decrease_refcount (p : PTCB) : PTCB := { p with refcount := p.refcount - 1 }

/-- Clear the children list of the exiting process (drained by the
re-parenting loop). -/
def clear_children (c : PCB) : PCB := { c with children_list := [] }

/-- Concatenate the exiting process's exited children onto the initial
process's exited list (rlist_append moves every node). -/
def append_exited (exs : List Nat) (r : PCB) : PCB :=
  { r with exited_list := r.exited_list ++ exs }

/-- The source side of rlist_append: the exiting process's exited list
is left empty. -/
def clear_exited (c : PCB) : PCB := { c with exited_list := [] }

/-- Push the exiting process onto a parent's exited list
(rlist_push_front(&curproc->parent->exited_list, ...)). -/
def push_exited (cid : Nat) (q : PCB) : PCB :=
  { q with exited_list := cid :: q.exited_list }

/-- curproc->thread_count-- of sys_ThreadExit. -/
def tc_dec (c : PCB) : PCB := { c with thread_count := c.thread_count - 1 }

/-- curproc->thread_count++ of sys_CreateThread. -/
def tc_inc (c : PCB) : PCB := { c with thread_count := c.thread_count + 1 }

/-- Insertion of a fresh PTCB into the process's PTCB collection. -/
def ptcb_append (newTid : Nat) (c : PCB) : PCB :=
  { c with ptcb_list := c.ptcb_list ++ [newTid] }

/-- Removal of a released PTCB from the process's PTCB collection. -/
def ptcb_erase (t : Nat) (c : PCB) : PCB :=
  { c with ptcb_list := rlist_remove c.ptcb_list t }

/-- The projection of a PCB that the live-thread invariant observes:
its PTCB collection and its thread_count. -/
def tlProj (c : PCB) : List Nat × Int := (c.ptcb_list, c.thread_count)

/-- Modelled from the spec: acquire_ptcb allocates a fresh PTCB for a
newly spawned thread (not exited, not detached, no joiners yet) and
inserts it into the owning process's PTCB collection before the thread
can run. -/
def acquire_ptcb (s : Sys) (curpid newTid : Nat) : Sys :=
  { procs := alist_mod s.procs curpid (ptcb_append newTid),
    heap := (newTid, { exited := false, detached := false, exitval := 0, refcount := 0 }) :: s.heap }

/-- sys_CreateThread: spawn a thread bound to the trampoline, acquire
its PTCB, bump the owner's thread_count, mark it runnable, and return
the PTCB address as the Tid. -/
def sys_CreateThread (s : Sys) (curpid newTid : Nat) : Nat × Sys :=
  let s1 := acquire_ptcb s curpid newTid
  (newTid, { s1 with procs := alist_mod s1.procs curpid tc_inc })

/-- sys_ThreadSelf: the Tid of the current thread is its PTCB address. -/
def sys_ThreadSelf (curTid : Nat) : Nat := curTid

/-- Result of a sys_ThreadJoin call: the return value, the value (if
any) written through the caller's exitval pointer, the state after the
call, whether free(ptcb) ran, and whether the caller blocked. -/
structure JoinResult where
  ret : Int
  out : Option Int
  st : Sys
  freed : Bool
  blocked : Bool
deriving Repr, DecidableEq

/-- The part of sys_ThreadJoin before the wait loop: the three
precondition checks (tid registered in the caller's process, no
self-join, target not detached), then increase_refcount.  An `error`
value is an immediate return; `ok` carries the state entering the wait
loop together with the flags read from the target.  `none` marks a
dangling-pointer dereference (cannot happen for a registered tid). -/
def sys_ThreadJoin_pre (s : Sys) (curpid selfTid t : Nat) :
    Option (Except JoinResult (Sys × PTCB)) :=
  match alist_get s.procs curpid with
  | none => none
  | some cur =>
    if !(rlist_find cur.ptcb_list t) then
      some (Except.error ⟨-1, none, s, false, false⟩)
    else if selfTid = t then
      some (Except.error ⟨-1, none, s, false, false⟩)
    else
      match alist_get s.heap t with
      | none => none
      | some p =>
        if p.detached then
          some (Except.error ⟨-1, none, s, false, false⟩)
        else
          some (Except.ok
            ({ s with heap := alist_set s.heap t (increase_refcount p) }, p))

/-- The part of sys_ThreadJoin after the wait loop (the loop has
terminated, so the target's detached or exited flag is set):
decrease_refcount, fail if the target got detached, otherwise copy
exitval out when the pointer is non-null and release the PTCB when its
decremented refcount equals 1. -/
def sys_ThreadJoin_resume (s : Sys) (curpid t : Nat) (nonnull : Bool) :
    Option JoinResult :=
  match alist_get s.heap t with
  | none => none
  | some p =>
    let p1 := decrease_refcount p
    let s1 := { s with heap := alist_set s.heap t p1 }
    if p1.detached then
      some ⟨-1, none, s1, false, false⟩
    else
      let out := if nonnull then some p1.exitval else none
      if p1.refcount = 1 then
        some ⟨0, out,
          { s1 with
            procs := alist_mod s1.procs curpid (ptcb_erase t),
            heap := alist_erase s1.heap t },
          true, false⟩
      else
        some ⟨0, out, s1, false, false⟩

/-- sys_ThreadJoin in full.  `wake` is the environment: the aggregate
effect of the other threads that run while the caller is blocked in
kernel_wait; the wait loop terminates when the target is detached or
exited, and the resumed half then runs on the woken state. -/
def sys_ThreadJoin (s : Sys) (curpid selfTid t : Nat) (nonnull : Bool)
    (wake : Sys → Sys) : Option JoinResult :=
  match sys_ThreadJoin_pre s curpid selfTid t with
  | none => none
  | some (Except.error r) => some r
  | some (Except.ok (s1, p)) =>
    if !p.detached && !p.exited then
      (sys_ThreadJoin_resume (wake s1) curpid t nonnull).map
        (fun r => { r with blocked := true })
    else
      sys_ThreadJoin_resume s1 curpid t nonnull

/-- sys_ThreadDetach: fail if the tid is not registered in the
caller's process or the target has already exited; otherwise set
detached and broadcast the target's exit condition. -/
def sys_ThreadDetach (s : Sys) (curpid t : Nat) :
    Option (Int × Sys × List Ev) :=
  match alist_get s.procs curpid with
  | none => none
  | some cur =>
    if !(rlist_find cur.ptcb_list t) then
      some (-1, s, [])
    else
      match alist_get s.heap t with
      | none => none
      | some p =>
        if p.exited then
          some (-1, s, [])
        else
          some (0,
            { s with heap := alist_set s.heap t { p with detached := true } },
            [Ev.bcastExitCv t])

/-- Read a PCB through an already-validated pointer: during teardown
the C code holds curproc (and initpcb) as pointers whose targets are
never deallocated, so the lookup always succeeds; the default is
unreachable. -/
def pread (procs : List (Nat × PCB)) (k : Nat) : PCB :=
  (alist_get procs k).getD default

/-- Rewrite one child's parent pointer to the initial process
(child->pcb->parent = initpcb). -/
def set_parent_root (c : PCB) : PCB := { c with parent := 1 }

/-- Push one re-parented child onto the initial process's children
list (rlist_push_front(&initpcb->children_list, child)). -/
def push_child (cid : Nat) (r : PCB) : PCB :=
  { r with children_list := cid :: r.children_list }

/-- The re-parenting loop of sys_ThreadExit: pop each entry of the
exiting process's children list, point its parent at the initial
process, and push it onto the initial process's children list. -/
def reparent (procs : List (Nat × PCB)) : List Nat → List (Nat × PCB)
  | [] => procs
  | c :: rest =>
    reparent (alist_mod (alist_mod procs c set_parent_root) 1 (push_child c)) rest

/-- The cleanup that sys_ThreadExit runs on the exiting process after
the PTCB sweep: release the args buffer, drop every file-table
reference, disconnect the main thread, and mark the process ZOMBIE. -/
def pcb_cleanup (c : PCB) : PCB :=
  { c with args := false, fidt := c.fidt.map (fun _ => false),
           main_thread := false, pstate := PState.ZOMBIE }

/-- The tail of process teardown: the two emptiness asserts on
children_list and exited_list, the PTCB-sweep loop, and the final
cleanup.  The sweep is written in the source as
`while (is_rlist_empty(&curproc->ptcb_list) != 0) { pop_front; free }`
whose condition is true exactly when the list IS empty; its body never
makes an empty list non-empty (popping the empty ring yields the
sentinel node, whose ptcb key is NULL, and free(NULL) is a no-op), so
the loop runs zero times on a non-empty list and never terminates on
an empty one. -/
def teardown_rest (s : Sys) (curpid : Nat) (evs : List Ev) :
    Except Abnormal (Sys × List Ev) :=
  let cur := pread s.procs curpid
  if !cur.children_list.isEmpty then Except.error Abnormal.assertFail
  else if !cur.exited_list.isEmpty then Except.error Abnormal.assertFail
  else if is_rlist_empty cur.ptcb_list then Except.error Abnormal.diverge
  else
    Except.ok
      ({ s with procs := alist_mod s.procs curpid pcb_cleanup }, evs)

/-- Process teardown, run by the last exiting thread once thread_count
has hit zero: if the process is not the initial process (pid 1),
re-parent its children to the initial process, hand any exited
children to the initial process (broadcasting its child_exit), and
insert the process itself into its parent's exited list (broadcasting
the parent's child_exit); then run the asserts, the sweep, and the
cleanup. -/
def teardown (s : Sys) (curpid : Nat) : Except Abnormal (Sys × List Ev) :=
  if curpid ≠ 1 then
    match alist_get s.procs 1 with
    | none => Except.error Abnormal.ub
    | some _ =>
      let procsA := reparent s.procs (pread s.procs curpid).children_list
      let procsB := alist_mod procsA curpid clear_children
      let exs := (pread procsB curpid).exited_list
      let step :=
        if !exs.isEmpty then
          (alist_mod (alist_mod procsB 1 (append_exited exs)) curpid clear_exited,
           [Ev.bcastChildExit 1])
        else (procsB, ([] : List Ev))
      let par := (pread step.1 curpid).parent
      teardown_rest { s with procs := alist_mod step.1 par (push_exited curpid) } curpid
        (step.2 ++ [Ev.bcastChildExit par])
  else
    teardown_rest s curpid []

/-- sys_ThreadExit: record the exit value in the caller's PTCB, set
its exited flag, broadcast the exit condition, decrement the owning
process's thread_count, run teardown when it reaches zero, and put the
calling thread to sleep forever.  `curpid` is the pid of CURPROC and
`tid` the address of cur_thread()->ptcb. -/
def sys_ThreadExit (s : Sys) (curpid tid : Nat) (v : Int) :
    Except Abnormal (Sys × List Ev) :=
  match alist_get s.heap tid with
  | none => Except.error Abnormal.ub
  | some p =>
    match alist_get s.procs curpid with
    | none => Except.error Abnormal.ub
    | some cur0 =>
      let s1 : Sys :=
        { procs := alist_mod s.procs curpid tc_dec,
          heap := alist_set s.heap tid { p with exitval := v, exited := true } }
      let evs0 := [Ev.writeExitval tid v, Ev.setExited tid, Ev.bcastExitCv tid]
      if cur0.thread_count - 1 = 0 then
        match teardown s1 curpid with
        | Except.error a => Except.error a
        | Except.ok (s2, tevs) => Except.ok (s2, evs0 ++ tevs ++ [Ev.sleepExited])
      else
        Except.ok (s1, evs0 ++ [Ev.sleepExited])

/-- Recognize the fatal-assert outcome of sys_ThreadExit. -/
def isAssertFail : Except Abnormal (Sys × List Ev) → Bool
  | Except.error Abnormal.assertFail => true
  | _ => false

/-!  Atomic effects on one PTCB, for reasoning about interleavings of
concurrent joiners, a detacher and the exiting thread.  Under the
single kernel lock each of these runs indivisibly. -/

/-- One atomic mutation of a PTCB: the exit write (lines
`ptcb->exitval = exitval; ptcb->exited = 1` of sys_ThreadExit), the
detach write of sys_ThreadDetach, or a joiner's refcount change. -/
inductive PtcbOp
  | exitW (v : Int)
  | detachW
  | incRef
  | decRef
deriving Repr, DecidableEq

/-- Apply one atomic PTCB mutation. -/
def applyOp (p : PTCB) : PtcbOp → PTCB
  | PtcbOp.exitW v => { p with exitval := v, exited := true }
  | PtcbOp.detachW => { p with detached := true }
  | PtcbOp.incRef => increase_refcount p
  | PtcbOp.decRef => decrease_refcount p

/-- Run a whole interleaving of atomic PTCB mutations. -/
def applyOps (p : PTCB) (ops : List PtcbOp) : PTCB := ops.foldl applyOp p

/-- Whether an atomic PTCB mutation is the exit write. -/
def isExitW : PtcbOp → Bool
  | PtcbOp.exitW _ => true
  | _ => false

/-!  The live-thread counting invariant and the operations of the core
as a step relation. -/

/-- Whether the Tid names a PTCB that is allocated and not yet exited. -/
def liveIn (heap : List (Nat × PTCB)) (t : Nat) : Bool :=
  match alist_get heap t with
  | some p => !p.exited
  | none => false

/-- Number of PTCBs of the collection whose exited flag is false. -/
def countNonExited (heap : List (Nat × PTCB)) (l : List Nat) : Nat :=
  (l.filter (liveIn heap)).length

/-- The §8 invariant for one process: the number of non-exited PTCBs
in its collection equals its thread_count. -/
def invP (s : Sys) (pid : Nat) : Bool :=
  match alist_get s.procs pid with
  | some c => (countNonExited s.heap c.ptcb_list : Int) = c.thread_count
  | none => true

/-- One operation of the thread-lifecycle core, executed by a thread
of process `curpid`, as a relation between kernel states.  The side
conditions record what the scheduler guarantees at each call site: a
fresh PTCB address for CreateThread, a registered non-exited PTCB for
the thread that calls ThreadExit, and the wait-loop postcondition
(detached or exited) when a joiner resumes. -/
inductive Step : Nat → Sys → Sys → Prop
  | create (s : Sys) (curpid newTid : Nat)
      (hfresh : alist_get s.heap newTid = none)
      (hfresh2 : ∀ c, alist_get s.procs curpid = some c → newTid ∉ c.ptcb_list) :
      Step curpid s (sys_CreateThread s curpid newTid).2
  | detach (s : Sys) (curpid t : Nat) (r : Int) (s2 : Sys) (evs : List Ev)
      (h : sys_ThreadDetach s curpid t = some (r, s2, evs)) :
      Step curpid s s2
  | joinPre (s : Sys) (curpid selfTid t : Nat) (s2 : Sys) (p : PTCB)
      (h : sys_ThreadJoin_pre s curpid selfTid t = some (Except.ok (s2, p))) :
      Step curpid s s2
  | joinResume (s : Sys) (curpid t : Nat) (nonnull : Bool) (p : PTCB) (r : JoinResult)
      (hp : alist_get s.heap t = some p)
      (hwoken : p.detached = true ∨ p.exited = true)
      (h : sys_ThreadJoin_resume s curpid t nonnull = some r) :
      Step curpid s r.st
  | texit (s : Sys) (curpid tid : Nat) (v : Int) (p : PTCB) (s2 : Sys) (evs : List Ev)
      (hp : alist_get s.heap tid = some p)
      (hex : p.exited = false)
      (hmem : ∀ c, alist_get s.procs curpid = some c → c.ptcb_list.count tid = 1)
      (h : sys_ThreadExit s curpid tid v = Except.ok (s2, evs)) :
      Step curpid s s2

/-- The release condition of the join success path as the
specification words it: the PTCB is removed and freed exactly when the
decremented refcount has reached zero.  Stated as a definition so that
it can be compared with what sys_ThreadJoin_resume actually does. -/
def release_exactly_at_zero (s : Sys) (curpid t : Nat) (nonnull : Bool) : Prop :=
  ∀ p r, alist_get s.heap t = some p →
    sys_ThreadJoin_resume s curpid t nonnull = some r →
    (r.freed = true ↔ p.refcount - 1 = 0)

/-!  Concrete states used to exercise the operations. -/

/-- A PTCB exactly as acquire_ptcb creates it. -/
def ptcbLive : PTCB := ⟨false, false, 0, 0⟩

/-- The PTCB of a thread that exited with value 42 while two joiners
were registered on it. -/
def joinedPTCB : PTCB := ⟨true, false, 42, 2⟩

/-- The PTCB of a live thread that has been detached. -/
def detachedPTCB : PTCB := ⟨false, true, 0, 0⟩

/-- The PTCB of a detached live thread with one registered joiner. -/
def detachedJoined : PTCB := ⟨false, true, 0, 1⟩

/-- The PTCB of a thread that exited with value 7 and no joiners. -/
def exitedPTCB : PTCB := ⟨true, false, 7, 0⟩

/-- The initial process: pid 1, one thread (Tid 9), no children. -/
def rootPCB : PCB := ⟨1, [], [], [9], 1, false, [], true, PState.ALIVE⟩

/-- A single-threaded user process (child of pid 1) whose only thread
has Tid 5. -/
def userPCB : PCB := ⟨1, [], [], [5], 1, false, [], true, PState.ALIVE⟩

/-- A process whose thread 3 is detached and whose thread 4 exited. -/
def mixedPCB : PCB := ⟨1, [], [], [3, 4], 2, false, [], true, PState.ALIVE⟩

/-- Kernel state in which thread 5 is the last live thread of process
2: exercising sys_ThreadExit hits the teardown sweep with a non-empty
PTCB collection. -/
def sweepBugSys : Sys := ⟨[(1, rootPCB), (2, userPCB)], [(5, ptcbLive), (9, ptcbLive)]⟩

/-- Kernel state in which thread 5 of process 2 has exited with value
42 and two joiners are registered on its PTCB. -/
def joinSys : Sys := ⟨[(1, rootPCB), (2, userPCB)], [(5, joinedPTCB), (9, ptcbLive)]⟩

/-- Kernel state whose process 2 owns a detached thread 3 and an
exited thread 4. -/
def detachSys : Sys := ⟨[(2, mixedPCB)], [(3, detachedPTCB), (4, exitedPTCB)]⟩

/-- Kernel state whose process 2 owns a detached thread 3 with one
joiner blocked on it. -/
def detachRaceSys : Sys := ⟨[(2, mixedPCB)], [(3, detachedJoined), (4, exitedPTCB)]⟩

/-- Kernel state in which the initial process still has a child (pid
2) while its own last thread (Tid 9) exits. -/
def rootBusySys : Sys :=
  ⟨[(1, ⟨1, [2], [], [9], 1, false, [], true, PState.ALIVE⟩), (2, userPCB)],
   [(9, ptcbLive), (5, ptcbLive)]⟩

/-- Kernel state in which process 2 (a child of the initial process,
with one live child pid 3 and one unreaped exited child pid 4) runs
its last thread 5. -/
def nonRootExitSys : Sys :=
  ⟨[(1, ⟨1, [2], [], [9], 1, false, [], true, PState.ALIVE⟩),
    (2, ⟨1, [3], [4], [5], 1, false, [], true, PState.ALIVE⟩),
    (3, ⟨2, [], [], [], 0, false, [], false, PState.ALIVE⟩)],
   [(9, ptcbLive), (5, ptcbLive)]⟩

/-- The result of resuming a joiner of thread 5 in joinSys: the second
joiner's wake-up releases the PTCB. -/
def joinCxResult : JoinResult :=
  ⟨0, some 42,
   ⟨[(1, rootPCB), (2, ⟨1, [], [], [], 1, false, [], true, PState.ALIVE⟩)],
    [(9, ptcbLive)]⟩,
   true, false⟩

/-- Like nonRootExitSys, but process 2 has no unreaped exited child: its
last thread's exit skips the exited-children handover entirely. -/
def nonRootExitSys2 : Sys :=
  ⟨[(1, ⟨1, [2], [], [9], 1, false, [], true, PState.ALIVE⟩),
    (2, ⟨1, [3], [], [5], 1, false, [], true, PState.ALIVE⟩),
    (3, ⟨2, [], [], [], 0, false, [], false, PState.ALIVE⟩)],
   [(9, ptcbLive), (5, ptcbLive)]⟩

/-- The result of the detach-race error path in detachRaceSys: refcount
dropped to 0, nothing written, nothing removed, nothing freed. -/
def detachRaceResult : JoinResult :=
  ⟨-1, none, ⟨[(2, mixedPCB)], [(3, ⟨false, true, 0, 0⟩), (4, exitedPTCB)]⟩,
   false, false⟩

/-!  Lemmas about the association-list primitives. -/

theorem alist_get_mod_eq {α : Type} (m : List (Nat × α)) (k : Nat) (f : α → α) :
    alist_get (alist_mod m k f) k = (alist_get m k).map f := by
  induction m with
  | nil => rfl
  | cons hd tl ih =>
    obtain ⟨a, v⟩ := hd
    by_cases h : a = k <;> simp [alist_mod, alist_get, h, ih]

theorem alist_get_mod_ne {α : Type} (m : List (Nat × α)) (k k' : Nat) (f : α → α)
    (h : k' ≠ k) : alist_get (alist_mod m k f) k' = alist_get m k' := by
  induction m with
  | nil => rfl
  | cons hd tl ih =>
    obtain ⟨a, v⟩ := hd
    by_cases ha : a = k
    · subst ha
      simp [alist_mod, alist_get, Ne.symm h]
    · by_cases ha' : a = k' <;> simp [alist_mod, alist_get, h, ha, ha', ih]

theorem alist_get_mod_proj {α β : Type} (m : List (Nat × α)) (k k' : Nat)
    (f : α → α) (g : α → β) (hg : ∀ x, g (f x) = g x) :
    (alist_get (alist_mod m k f) k').map g = (alist_get m k').map g := by
  by_cases h : k' = k
  · subst h
    rw [alist_get_mod_eq]
    cases alist_get m k' <;> simp [hg]
  · rw [alist_get_mod_ne m k k' f h]

theorem alist_mod_isSome {α : Type} (m : List (Nat × α)) (k k' : Nat) (f : α → α) :
    (alist_get (alist_mod m k f) k').isSome = (alist_get m k').isSome := by
  by_cases h : k' = k
  · subst h
    rw [alist_get_mod_eq]
    cases alist_get m k' <;> simp
  · rw [alist_get_mod_ne m k k' f h]

theorem alist_get_set_eq {α : Type} (m : List (Nat × α)) (k : Nat) (v : α) :
    alist_get (alist_set m k v) k = (alist_get m k).map (fun _ => v) := by
  induction m with
  | nil => rfl
  | cons hd tl ih =>
    obtain ⟨a, w⟩ := hd
    by_cases h : a = k <;> simp [alist_set, alist_get, h, ih]

theorem alist_get_set_ne {α : Type} (m : List (Nat × α)) (k k' : Nat) (v : α)
    (h : k' ≠ k) : alist_get (alist_set m k v) k' = alist_get m k' := by
  induction m with
  | nil => rfl
  | cons hd tl ih =>
    obtain ⟨a, w⟩ := hd
    by_cases ha : a = k
    · subst ha
      simp [alist_set, alist_get, Ne.symm h]
    · by_cases ha' : a = k' <;> simp [alist_set, alist_get, h, ha, ha', ih]

theorem alist_get_erase_eq {α : Type} (m : List (Nat × α)) (k : Nat) :
    alist_get (alist_erase m k) k = none := by
  induction m with
  | nil => rfl
  | cons hd tl ih =>
    obtain ⟨a, v⟩ := hd
    by_cases h : a = k <;> simp [alist_erase, alist_get, h, ih]

theorem alist_get_erase_ne {α : Type} (m : List (Nat × α)) (k k' : Nat)
    (h : k' ≠ k) : alist_get (alist_erase m k) k' = alist_get m k' := by
  induction m with
  | nil => rfl
  | cons hd tl ih =>
    obtain ⟨a, v⟩ := hd
    by_cases ha : a = k
    · subst ha
      simp [alist_erase, alist_get, Ne.symm h, ih]
    · by_cases ha' : a = k' <;> simp [alist_erase, alist_get, h, ha, ha', ih]

theorem alist_set_get_self {α : Type} (m : List (Nat × α)) (k : Nat) (v : α)
    (h : alist_get m k = some v) : alist_set m k v = m := by
  induction m with
  | nil => rfl
  | cons hd tl ih =>
    obtain ⟨a, w⟩ := hd
    by_cases ha : a = k
    · subst ha
      simp [alist_get] at h
      simp [alist_set, h]
    · simp [alist_get, ha] at h
      simp [alist_set, ha, ih h]

/-!  Lemmas about the re-parenting loop. -/

theorem reparent_proj {β : Type} (g : PCB → β)
    (hg1 : ∀ x, g (set_parent_root x) = g x)
    (hg2 : ∀ c x, g (push_child c x) = g x)
    (cs : List Nat) (procs : List (Nat × PCB)) (k : Nat) :
    (alist_get (reparent procs cs) k).map g = (alist_get procs k).map g := by
  induction cs generalizing procs with
  | nil => rfl
  | cons c rest ih =>
    rw [reparent, ih, alist_get_mod_proj _ 1 k _ g (hg2 c),
      alist_get_mod_proj _ c k _ g hg1]

theorem reparent_isSome (cs : List Nat) (procs : List (Nat × PCB)) (k : Nat) :
    (alist_get (reparent procs cs) k).isSome = (alist_get procs k).isSome := by
  induction cs generalizing procs with
  | nil => rfl
  | cons c rest ih => rw [reparent, ih, alist_mod_isSome, alist_mod_isSome]

theorem reparent_root_children (cs : List Nat) (procs : List (Nat × PCB)) :
    (alist_get (reparent procs cs) 1).map PCB.children_list
      = ((alist_get procs 1).map PCB.children_list).map (fun l => cs.reverse ++ l) := by
  induction cs generalizing procs with
  | nil =>
    rw [reparent]
    cases alist_get procs 1 <;> simp
  | cons c rest ih =>
    rw [reparent, ih]
    have h1 : (alist_get (alist_mod (alist_mod procs c set_parent_root) 1
          (push_child c)) 1).map PCB.children_list
        = ((alist_get procs 1).map PCB.children_list).map (fun l => c :: l) := by
      rw [alist_get_mod_eq]
      have h2 := alist_get_mod_proj procs c 1 set_parent_root PCB.children_list
        (fun x => rfl)
      cases hh : alist_get (alist_mod procs c set_parent_root) 1 <;>
        rw [hh] at h2 <;> cases hg : alist_get procs 1 <;>
        rw [hg] at h2 <;> simp_all [push_child]
    rw [h1]
    cases alist_get procs 1 <;> simp

theorem reparent_keeps_parent1 (cs : List Nat) (procs : List (Nat × PCB)) (k : Nat)
    (h : (alist_get procs k).map PCB.parent = some 1) :
    (alist_get (reparent procs cs) k).map PCB.parent = some 1 := by
  induction cs generalizing procs with
  | nil => rw [reparent]; exact h
  | cons c rest ih =>
    rw [reparent]
    apply ih
    rw [alist_get_mod_proj _ 1 k (push_child c) PCB.parent (fun x => rfl)]
    by_cases hc : k = c
    · subst hc
      rw [alist_get_mod_eq]
      cases hg : alist_get procs k <;> rw [hg] at h <;> simp_all [set_parent_root]
    · rw [alist_get_mod_ne _ _ _ _ hc]
      exact h

theorem reparent_sets_parent (cs : List Nat) (procs : List (Nat × PCB)) (k : Nat)
    (hmem : k ∈ cs) (hsome : (alist_get procs k).isSome = true) :
    (alist_get (reparent procs cs) k).map PCB.parent = some 1 := by
  induction cs generalizing procs with
  | nil => cases hmem
  | cons c rest ih =>
    rw [reparent]
    rcases List.mem_cons.mp hmem with hk | hk
    · subst hk
      apply reparent_keeps_parent1
      rw [alist_get_mod_proj _ 1 k (push_child k) PCB.parent (fun x => rfl),
        alist_get_mod_eq]
      cases hg : alist_get procs k
      · rw [hg] at hsome
        simp at hsome
      · simp [set_parent_root]
    · exact ih _ hk (by rw [alist_mod_isSome, alist_mod_isSome]; exact hsome)

/-!  Lemmas about the live-thread count. -/

theorem countNonExited_congr (heap1 heap2 : List (Nat × PTCB)) (l : List Nat)
    (h : ∀ t ∈ l, liveIn heap1 t = liveIn heap2 t) :
    countNonExited heap1 l = countNonExited heap2 l := by
  unfold countNonExited
  rw [List.filter_congr h]

theorem liveIn_set_same (heap : List (Nat × PTCB)) (t : Nat) (q p : PTCB)
    (hget : alist_get heap t = some p) (hex : q.exited = p.exited) (x : Nat) :
    liveIn (alist_set heap t q) x = liveIn heap x := by
  by_cases hx : x = t
  · subst hx
    unfold liveIn
    rw [alist_get_set_eq, hget]
    simp [hex]
  · unfold liveIn
    rw [alist_get_set_ne _ _ _ _ hx]

theorem countNonExited_set_same (heap : List (Nat × PTCB)) (t : Nat) (q p : PTCB)
    (hget : alist_get heap t = some p) (hex : q.exited = p.exited) (l : List Nat) :
    countNonExited (alist_set heap t q) l = countNonExited heap l :=
  countNonExited_congr _ _ _ (fun x _ => liveIn_set_same heap t q p hget hex x)

theorem countNonExited_append_fresh (heap : List (Nat × PTCB)) (l : List Nat)
    (newTid : Nat) (fresh : PTCB) (hget : alist_get heap newTid = none)
    (hmem : newTid ∉ l) (hfl : fresh.exited = false) :
    countNonExited ((newTid, fresh) :: heap) (l ++ [newTid])
      = countNonExited heap l + 1 := by
  unfold countNonExited
  rw [List.filter_append, List.length_append]
  have h1 : l.filter (liveIn ((newTid, fresh) :: heap)) = l.filter (liveIn heap) := by
    apply List.filter_congr
    intro x hx
    have hne : ¬ newTid = x := fun hh => hmem (hh ▸ hx)
    unfold liveIn
    simp [alist_get, hne]
  have h2 : [newTid].filter (liveIn ((newTid, fresh) :: heap)) = [newTid] := by
    simp [List.filter, liveIn, alist_get, hfl]
  rw [h1, h2]
  simp

theorem length_filter_flip (l : List Nat) (p q : Nat → Bool) (a : Nat)
    (hcount : l.count a = 1) (hpa : p a = true) (hqa : q a = false)
    (hagree : ∀ x ∈ l, x ≠ a → p x = q x) :
    (l.filter q).length + 1 = (l.filter p).length := by
  induction l with
  | nil => simp at hcount
  | cons b t ih =>
    by_cases hb : b = a
    · subst hb
      have ht : b ∉ t := by
        have h0 : t.count b = 0 := by
          have := hcount
          rw [List.count_cons_self] at this
          omega
        exact (List.count_eq_zero).mp h0
      have hft : t.filter p = t.filter q := by
        apply List.filter_congr
        intro x hx
        exact (hagree x (List.mem_cons_of_mem _ hx)
          (fun hh => ht (hh ▸ hx))).symm ▸ rfl
      simp [List.filter_cons, hpa, hqa, hft]
    · have hcount' : t.count a = 1 := by
        have := hcount
        rw [List.count_cons] at this
        simpa [hb] using this
      have hpq : p b = q b := hagree b (List.mem_cons_self _ _) hb
      have iht := ih hcount' (fun x hx hxa => hagree x (List.mem_cons_of_mem _ hx) hxa)
      by_cases hpb : p b = true <;>
        simp [List.filter_cons, hpb, hpq ▸ hpb] at iht ⊢ <;> omega

theorem length_filter_erase_false (l : List Nat) (q : Nat → Bool) (a : Nat)
    (hqa : q a = false) :
    ((l.erase a).filter q).length = (l.filter q).length := by
  induction l with
  | nil => rfl
  | cons b t ih =>
    by_cases hb : b = a
    · subst hb
      rw [List.erase_cons_head]
      simp [List.filter_cons, hqa]
    · rw [List.erase_cons_tail]
      · simp [List.filter_cons]
        cases hqb : q b <;> simp [ih]
      · simpa using hb

/-!  Shape lemmas for teardown and sys_ThreadExit. -/

theorem teardown_rest_ok (s : Sys) (curpid : Nat) (evs : List Ev) (s2 : Sys)
    (evs2 : List Ev) (h : teardown_rest s curpid evs = Except.ok (s2, evs2)) :
    s2.heap = s.heap ∧ evs2 = evs ∧
    s2.procs = alist_mod s.procs curpid pcb_cleanup ∧
    (pread s.procs curpid).children_list = [] ∧
    (pread s.procs curpid).exited_list = [] ∧
    (pread s.procs curpid).ptcb_list ≠ [] := by
  rw [teardown_rest] at h
  split at h
  · exact absurd h (by simp)
  · split at h
    · exact absurd h (by simp)
    · split at h
      · exact absurd h (by simp)
      · rename_i g1 g2 g3
        have hc : (pread s.procs curpid).children_list = [] :=
          List.isEmpty_iff.mp (by revert g1; cases (pread s.procs curpid).children_list.isEmpty <;> simp)
        have he : (pread s.procs curpid).exited_list = [] :=
          List.isEmpty_iff.mp (by revert g2; cases (pread s.procs curpid).exited_list.isEmpty <;> simp)
        have hp : (pread s.procs curpid).ptcb_list ≠ [] := by
          intro hh
          rw [is_rlist_empty] at g3
          exact g3 (by simp [hh])
        have h2 := h
        simp only [Except.ok.injEq, Prod.mk.injEq] at h2
        obtain ⟨hs, hevs⟩ := h2
        exact ⟨by rw [← hs], hevs.symm, by rw [← hs], hc, he, hp⟩

theorem pairproj_cleanup (x : PCB) :
    (fun c => (c.ptcb_list, c.thread_count)) (pcb_cleanup x)
      = (fun c => (c.ptcb_list, c.thread_count)) x := rfl

theorem teardown_ok_proj (s : Sys) (curpid : Nat) (s2 : Sys) (tevs : List Ev)
    (h : teardown s curpid = Except.ok (s2, tevs)) :
    s2.heap = s.heap ∧
    (alist_get s2.procs curpid).map tlProj = (alist_get s.procs curpid).map tlProj := by
  by_cases hroot : curpid = 1
  · rw [teardown, if_neg (not_not_intro hroot)] at h
    obtain ⟨hheap, _, hprocs, _, _, _⟩ := teardown_rest_ok _ _ _ _ _ h
    refine ⟨hheap, ?_⟩
    rw [hprocs, alist_get_mod_proj _ curpid curpid pcb_cleanup tlProj (fun x => rfl)]
  · rw [teardown, if_pos hroot] at h
    split at h
    · exact absurd h (by simp)
    · obtain ⟨hheap, _, hprocs, _, _, _⟩ := teardown_rest_ok _ _ _ _ _ h
      refine ⟨hheap, ?_⟩
      rw [hprocs]
      rw [alist_get_mod_proj _ curpid curpid pcb_cleanup tlProj (fun x => rfl)]
      rw [alist_get_mod_proj _ _ curpid (push_exited curpid) tlProj (fun x => rfl)]
      by_cases hexs : ((pread
          (alist_mod (reparent s.procs (pread s.procs curpid).children_list)
            curpid clear_children) curpid).exited_list).isEmpty
      all_goals simp only [hexs, Bool.not_true, Bool.not_false, if_true, if_false,
        Bool.false_eq_true, reduceIte]
      · rw [alist_get_mod_proj _ curpid curpid clear_children tlProj (fun x => rfl)]
        rw [reparent_proj tlProj (fun x => rfl) (fun c x => rfl)]
      · rw [alist_get_mod_proj _ curpid curpid clear_exited tlProj (fun x => rfl)]
        rw [alist_get_mod_proj _ 1 curpid (append_exited _) tlProj (fun x => rfl)]
        rw [alist_get_mod_proj _ curpid curpid clear_children tlProj (fun x => rfl)]
        rw [reparent_proj tlProj (fun x => rfl) (fun c x => rfl)]

theorem sys_ThreadExit_ok_proj (s : Sys) (curpid tid : Nat) (v : Int) (p : PTCB)
    (s2 : Sys) (evs : List Ev)
    (hp : alist_get s.heap tid = some p)
    (h : sys_ThreadExit s curpid tid v = Except.ok (s2, evs)) :
    s2.heap = alist_set s.heap tid { p with exitval := v, exited := true } ∧
    (alist_get s2.procs curpid).map tlProj
      = (alist_get s.procs curpid).map (fun c => (c.ptcb_list, c.thread_count - 1)) := by
  have hstep : (alist_get (alist_mod s.procs curpid tc_dec) curpid).map tlProj
      = (alist_get s.procs curpid).map (fun c => (c.ptcb_list, c.thread_count - 1)) := by
    rw [alist_get_mod_eq]
    cases alist_get s.procs curpid <;> simp [tlProj, tc_dec]
  rw [sys_ThreadExit, hp] at h
  simp only [] at h
  split at h
  · exact absurd h (by simp)
  · rename_i cur0 hc
    by_cases htc : cur0.thread_count - 1 = 0
    · rw [if_pos htc] at h
      split at h
      · exact absurd h (by simp)
      all_goals
        rename_i ht
        simp only [Except.ok.injEq, Prod.mk.injEq] at h
        obtain ⟨hs2, hevs⟩ := h
        subst hs2
        obtain ⟨hheap, hproj⟩ := teardown_ok_proj _ _ _ _ ht
        exact ⟨hheap, by rw [hproj]; exact hstep⟩
    · rw [if_neg htc] at h
      simp only [Except.ok.injEq, Prod.mk.injEq] at h
      obtain ⟨hs2, _⟩ := h
      subst hs2
      exact ⟨rfl, hstep⟩

theorem sys_ThreadExit_trace_shape (s : Sys) (curpid tid : Nat) (v : Int)
    (s2 : Sys) (evs : List Ev)
    (h : sys_ThreadExit s curpid tid v = Except.ok (s2, evs)) :
    evs.take 3 = [Ev.writeExitval tid v, Ev.setExited tid, Ev.bcastExitCv tid] := by
  rw [sys_ThreadExit] at h
  split at h
  · exact absurd h (by simp)
  · split at h
    · exact absurd h (by simp)
    · rename_i cur0 hc
      by_cases htc : cur0.thread_count - 1 = 0
      · rw [if_pos htc] at h
        split at h
        · exact absurd h (by simp)
        all_goals
          simp only [Except.ok.injEq, Prod.mk.injEq] at h
          obtain ⟨_, hevs⟩ := h
          rw [← hevs]
          simp
      · rw [if_neg htc] at h
        simp only [Except.ok.injEq, Prod.mk.injEq] at h
        obtain ⟨_, hevs⟩ := h
        rw [← hevs]
        simp

/-!  Claim C1. -/

/-- C1: the claim says the teardown sweep pops and releases every remaining
PTCB of the exiting process, leaving its collection empty.  On the code the
sweep loop's guard is inverted — `while (is_rlist_empty(...) != 0)` iterates
only while the collection is already empty — so the sweep never pops anything:
when the last thread (Tid 5) of process 2 exits, the whole teardown succeeds
yet the PTCB of Tid 5 is still in process 2's collection and still allocated,
and the process is already marked ZOMBIE. -/
theorem thread_exit_sweep_not_run :
    (sys_ThreadExit sweepBugSys 2 5 99).toOption.map
        (fun x => ((alist_get x.1.procs 2).map PCB.ptcb_list,
                   (alist_get x.1.heap 5).isSome,
                   (alist_get x.1.procs 2).map PCB.pstate))
      = some (some [5], true, some PState.ZOMBIE) := by decide

/-!  Claim C4. -/

/-- C4 counterexample: thread 3 of process 2 is already detached (and not
exited); a second sys_ThreadDetach on it returns 0 — success, not an error —
refuting the claim that a second Detach always fails. -/
theorem threadDetach_double_detach_succeeds_cx :
    sys_ThreadDetach detachSys 2 3 = some (0, detachSys, [Ev.bcastExitCv 3])
      ∧ (0 : Int) ≠ -1 := by decide

/-- C4 (amended): for a target PTCB registered in the caller's process,
Detach after the target has exited always fails with -1 and leaves the state
unchanged; a second Detach on an already-detached, not-yet-exited target
returns success (0) and leaves the PTCB and process state unchanged (it only
re-broadcasts the exit condition) — it does not fail, but neither does it
corrupt state. -/
theorem threadDetach_exited_or_detached (s : Sys) (curpid t : Nat)
    (cur : PCB) (p : PTCB)
    (hc : alist_get s.procs curpid = some cur)
    (hmem : rlist_find cur.ptcb_list t = true)
    (hp : alist_get s.heap t = some p) :
    (p.exited = true → sys_ThreadDetach s curpid t = some (-1, s, [])) ∧
    (p.exited = false → p.detached = true →
      sys_ThreadDetach s curpid t = some (0, s, [Ev.bcastExitCv t])) := by
  constructor
  · intro hex
    simp [sys_ThreadDetach, hc, hmem, hp, hex]
  · intro hex hdet
    have hpp : (PTCB.mk false true p.exitval p.refcount) = p := by
      obtain ⟨e, d, xv, rc⟩ := p
      simp only at hdet hex
      rw [hdet, hex]
    simp [sys_ThreadDetach, hc, hmem, hp, hex]
    rw [hpp, alist_set_get_self s.heap t p hp]

/-- Witness for C4: in detachSys, detaching the exited thread 4 fails with -1
and detaching the already-detached thread 3 returns success with the state
unchanged. -/
theorem threadDetach_exited_or_detached_witness :
    sys_ThreadDetach detachSys 2 4 = some (-1, detachSys, []) ∧
    sys_ThreadDetach detachSys 2 3 = some (0, detachSys, [Ev.bcastExitCv 3]) :=
  ⟨(threadDetach_exited_or_detached detachSys 2 4 mixedPCB exitedPTCB
      (by decide) (by decide) (by decide)).1 (by decide),
   (threadDetach_exited_or_detached detachSys 2 3 mixedPCB detachedPTCB
      (by decide) (by decide) (by decide)).2 (by decide) (by decide)⟩

/-!  Claim C5. -/

/-- C5: a joiner that wakes from the wait loop of sys_ThreadJoin and finds the
target's detached flag set decrements the target's refcount and returns the
error -1 instead of success, even though its preconditions held at entry. -/
theorem threadJoin_wake_detached_error (s : Sys) (curpid t : Nat)
    (nonnull : Bool) (p : PTCB)
    (hp : alist_get s.heap t = some p) (hdet : p.detached = true) :
    sys_ThreadJoin_resume s curpid t nonnull
      = some ⟨-1, none,
          { s with heap := alist_set s.heap t (decrease_refcount p) },
          false, false⟩ := by
  have hd : (decrease_refcount p).detached = true := hdet
  simp [sys_ThreadJoin_resume, hp, hd]

/-- Witness for C5: the joiner of the detached thread 3 in detachRaceSys wakes,
drops its reference (refcount 1 becomes 0) and gets -1. -/
theorem threadJoin_wake_detached_error_witness :
    sys_ThreadJoin_resume detachRaceSys 2 3 true
      = some ⟨-1, none,
          { detachRaceSys with
            heap := alist_set detachRaceSys.heap 3 (decrease_refcount detachedJoined) },
          false, false⟩ :=
  threadJoin_wake_detached_error detachRaceSys 2 3 true detachedJoined
    (by decide) (by decide)

/-!  Claim C10. -/

/-- C10: when the post-wait path of sys_ThreadJoin returns the detach-race
error, it writes nothing through the caller's exitval pointer, removes nothing
from the process's PTCB collection, and frees nothing — whatever the target's
refcount is (only its refcount is decremented); and on every input whatsoever,
sys_ThreadJoin_resume frees the PTCB only when it returns success (0). -/
theorem threadJoin_detach_race_frame (s : Sys) (curpid t : Nat)
    (nonnull : Bool) (p : PTCB)
    (hp : alist_get s.heap t = some p) (hdet : p.detached = true) :
    (∀ r, sys_ThreadJoin_resume s curpid t nonnull = some r →
      r.out = none ∧ r.freed = false ∧ r.st.procs = s.procs ∧
      alist_get r.st.heap t = some (decrease_refcount p)) ∧
    (∀ s' curpid' t' nonnull' r', sys_ThreadJoin_resume s' curpid' t' nonnull' = some r' →
      r'.freed = true → r'.ret = 0) := by
  constructor
  · intro r hr
    have hd : (decrease_refcount p).detached = true := hdet
    simp only [sys_ThreadJoin_resume, hp, hd, if_true, Option.some.injEq] at hr
    subst hr
    refine ⟨rfl, rfl, rfl, ?_⟩
    rw [alist_get_set_eq, hp]
    rfl
  · intro s' curpid' t' nonnull' r' hr hfreed
    rw [sys_ThreadJoin_resume] at hr
    split at hr
    · exact absurd hr (by simp)
    · rename_i q hq
      by_cases hd : (decrease_refcount q).detached
      · rw [if_pos hd] at hr
        simp only [Option.some.injEq] at hr
        subst hr
        exact absurd hfreed (by simp)
      · rw [if_neg hd] at hr
        by_cases hrc : (decrease_refcount q).refcount = 1
        · rw [if_pos hrc] at hr
          simp only [Option.some.injEq] at hr
          subst hr
          rfl
        · rw [if_neg hrc] at hr
          simp only [Option.some.injEq] at hr
          subst hr
          exact absurd hfreed (by simp)

/-- Witness for C10: in detachRaceSys the detach-race error path leaves the
collection and the heap entry of thread 3 intact. -/
theorem threadJoin_detach_race_frame_witness :
    detachRaceResult.out = none ∧ detachRaceResult.freed = false ∧
    detachRaceResult.st.procs = detachRaceSys.procs ∧
    alist_get detachRaceResult.st.heap 3 = some (decrease_refcount detachedJoined) :=
  (threadJoin_detach_race_frame detachRaceSys 2 3 true detachedJoined
    (by decide) (by decide)).1 detachRaceResult (by decide)

/-!  Claim C6. -/

/-- C6: sys_ThreadJoin fails immediately with -1 and performs no state change
whatsoever — no refcount increment, no blocking, no write through the output
pointer — whenever the tid is not registered in the caller's process, or names
the caller itself, or names an already-detached PTCB; this holds for every
environment `wake`. -/
theorem threadJoin_precondition_failures (s : Sys) (curpid selfTid t : Nat)
    (nonnull : Bool) (wake : Sys → Sys) (cur : PCB)
    (hc : alist_get s.procs curpid = some cur)
    (hcase : rlist_find cur.ptcb_list t = false ∨ selfTid = t ∨
      (∃ p, alist_get s.heap t = some p ∧ p.detached = true)) :
    sys_ThreadJoin s curpid selfTid t nonnull wake
      = some ⟨-1, none, s, false, false⟩ := by
  rcases hcase with hm | hself | ⟨p, hp, hdet⟩
  · simp [sys_ThreadJoin, sys_ThreadJoin_pre, hc, hm]
  · by_cases hm : rlist_find cur.ptcb_list t <;>
      simp [sys_ThreadJoin, sys_ThreadJoin_pre, hc, hm, hself]
  · by_cases hm : rlist_find cur.ptcb_list t <;>
      by_cases hself : selfTid = t <;>
      simp [sys_ThreadJoin, sys_ThreadJoin_pre, hc, hm, hself, hp, hdet]

/-- Witness for C6: joining a tid (99) that names no PTCB of the caller's
process fails with -1 and changes nothing, whatever the environment does. -/
theorem threadJoin_precondition_failures_witness :
    sys_ThreadJoin joinSys 2 9 99 true id = some ⟨-1, none, joinSys, false, false⟩ :=
  threadJoin_precondition_failures joinSys 2 9 99 true id userPCB
    (by decide) (Or.inl (by decide))

/-!  Claim C2. -/

/-- C2 counterexample: in joinSys thread 5 has exited with two registered
joiners (refcount 2).  The claim says the PTCB is removed and released exactly
when the decremented refcount reaches zero; the code releases it here although
the decremented refcount is 1, not 0. -/
theorem threadJoin_release_gate_not_zero_cx :
    ¬ release_exactly_at_zero joinSys 2 5 true := by
  intro h
  exact absurd ((h joinedPTCB joinCxResult (by decide) (by decide)).mp (by decide))
    (by decide)

/-- C2 (amended): on the success path of sys_ThreadJoin (target exited and not
detached after the wait) the function copies the target's exitval to the
caller's output iff the pointer is non-null, decrements the refcount, returns
success (0), and removes the PTCB from the process's collection and frees it
exactly when the decremented refcount equals 1 (not 0); otherwise it leaves
the PTCB in place. -/
theorem threadJoin_success_path (s : Sys) (curpid t : Nat) (nonnull : Bool)
    (p : PTCB) (hp : alist_get s.heap t = some p)
    (hex : p.exited = true) (hdet : p.detached = false) :
    ∃ r, sys_ThreadJoin_resume s curpid t nonnull = some r ∧
      r.ret = 0 ∧
      r.out = (if nonnull then some p.exitval else none) ∧
      (r.freed = true ↔ p.refcount - 1 = 1) ∧
      (p.refcount - 1 = 1 →
        r.st = { procs := alist_mod s.procs curpid (ptcb_erase t),
                 heap := alist_erase (alist_set s.heap t (decrease_refcount p)) t }) ∧
      (p.refcount - 1 ≠ 1 →
        r.st = { s with heap := alist_set s.heap t (decrease_refcount p) }) := by
  have hd : (decrease_refcount p).detached = false := hdet
  by_cases hrc : (decrease_refcount p).refcount = 1
  · have hr : sys_ThreadJoin_resume s curpid t nonnull
        = some ⟨0, if nonnull then some p.exitval else none,
            { procs := alist_mod s.procs curpid (ptcb_erase t),
              heap := alist_erase (alist_set s.heap t (decrease_refcount p)) t },
            true, false⟩ := by
      simp only [sys_ThreadJoin_resume, hp, hd, Bool.false_eq_true, if_false,
        if_pos hrc, reduceIte]
      rfl
    exact ⟨_, hr, rfl, rfl, Iff.intro (fun _ => hrc) (fun _ => rfl),
      fun _ => rfl, fun hne => absurd hrc hne⟩
  · have hr : sys_ThreadJoin_resume s curpid t nonnull
        = some ⟨0, if nonnull then some p.exitval else none,
            { s with heap := alist_set s.heap t (decrease_refcount p) },
            false, false⟩ := by
      simp only [sys_ThreadJoin_resume, hp, hd, Bool.false_eq_true, if_false,
        if_neg hrc, reduceIte]
      rfl
    exact ⟨_, hr, rfl, rfl,
      Iff.intro (fun hh => absurd hh (by simp)) (fun hh => absurd hh hrc),
      fun heq => absurd heq hrc, fun _ => rfl⟩

/-- Witness for C2: the second waking joiner of thread 5 in joinSys gets 42,
return value 0, and the release happens with decremented refcount 1. -/
theorem threadJoin_success_path_witness :
    (sys_ThreadJoin_resume joinSys 2 5 true).map JoinResult.ret = some 0 ∧
    (sys_ThreadJoin_resume joinSys 2 5 true).map JoinResult.out = some (some 42) ∧
    (sys_ThreadJoin_resume joinSys 2 5 true).map JoinResult.freed = some true := by
  obtain ⟨r, hr, h0, hout, hfree, _, _⟩ :=
    threadJoin_success_path joinSys 2 5 true joinedPTCB (by decide) (by decide) (by decide)
  rw [hr]
  refine ⟨by simp [h0], by simp [hout, joinedPTCB], by simp [hfree.mpr (by decide)]⟩

/-!  Claim C9. -/

/-- C9: the emptiness asserts on children_list and exited_list run for every
process, the root included, and for the root the re-parenting branch is
skipped entirely; so if the last thread of pid 1 exits while the root still
has any child or any unreaped exited child, sys_ThreadExit aborts with the
fatal assert instead of returning or reporting an error. -/
theorem root_exit_assert_fatal (s : Sys) (tid : Nat) (v : Int) (p : PTCB)
    (root : PCB)
    (hp : alist_get s.heap tid = some p)
    (hr : alist_get s.procs 1 = some root)
    (hlast : root.thread_count = 1)
    (hbusy : root.children_list ≠ [] ∨ root.exited_list ≠ []) :
    sys_ThreadExit s 1 tid v = Except.error Abnormal.assertFail := by
  have hpread : pread (alist_mod s.procs 1 tc_dec) 1 = tc_dec root := by
    rw [pread, alist_get_mod_eq, hr]
    rfl
  have ht : teardown
      ⟨alist_mod s.procs 1 tc_dec,
       alist_set s.heap tid { p with exitval := v, exited := true }⟩ 1
      = Except.error Abnormal.assertFail := by
    rw [teardown, if_neg (by simp)]
    rw [teardown_rest]
    simp only [hpread]
    rcases hbusy with hb | hb
    · rw [if_pos]
      simp [tc_dec, hb]
    · by_cases hch : root.children_list = []
      · rw [if_neg, if_pos]
        · simp [tc_dec, hb]
        · simp [tc_dec, hch]
      · rw [if_pos]
        simp [tc_dec, hch]
  simp only [sys_ThreadExit, hp, hr]
  have hcond : root.thread_count - 1 = 0 := by
    rw [hlast]
    exact sub_self 1
  rw [if_pos hcond, ht]

/-- Witness for C9: the root of rootBusySys still has child 2 when its last
thread 9 exits: fatal assert. -/
theorem root_exit_assert_fatal_witness :
    sys_ThreadExit rootBusySys 1 9 0 = Except.error Abnormal.assertFail :=
  root_exit_assert_fatal rootBusySys 9 0 ptcbLive
    ⟨1, [2], [], [9], 1, false, [], true, PState.ALIVE⟩
    (by decide) (by decide) (by decide) (Or.inl (by decide))

/-!  Claim C3. -/

theorem applyOps_append (p : PTCB) (l1 l2 : List PtcbOp) :
    applyOps p (l1 ++ l2) = applyOps (applyOps p l1) l2 := by
  rw [applyOps, applyOps, applyOps, List.foldl_append]

theorem applyOps_no_exitW (p : PTCB) (l : List PtcbOp)
    (h : ∀ op ∈ l, isExitW op = false) :
    (applyOps p l).exited = p.exited ∧ (applyOps p l).exitval = p.exitval := by
  induction l generalizing p with
  | nil => exact ⟨rfl, rfl⟩
  | cons op rest ih =>
    have hop := h op (List.mem_cons_self _ _)
    have hrest : ∀ o ∈ rest, isExitW o = false :=
      fun o ho => h o (List.mem_cons_of_mem _ ho)
    cases op with
    | exitW w => simp [isExitW] at hop
    | detachW => simpa [applyOps, applyOp] using ih { p with detached := true } hrest
    | incRef => simpa [applyOps, applyOp, increase_refcount] using ih _ hrest
    | decRef => simpa [applyOps, applyOp, decrease_refcount] using ih _ hrest

/-- C3: sys_ThreadExit stores the exit value and sets the exited flag strictly
before broadcasting the exit condition (the first three events of every
successful exit trace are exactly write-exitval, set-exited, broadcast in this
order), and the handoff is race-free: on any interleaving of atomic PTCB
operations that contains exactly one exit write (of v), the PTCB ends exited
with exitval v, and every sys_ThreadJoin that resumes against the resulting
PTCB and copies a value out copies exactly v. -/
theorem exitval_handoff (p0 : PTCB) (l1 l2 : List PtcbOp) (v : Int)
    (h2 : ∀ op ∈ l2, isExitW op = false) :
    ((applyOps p0 (l1 ++ PtcbOp.exitW v :: l2)).exited = true ∧
     (applyOps p0 (l1 ++ PtcbOp.exitW v :: l2)).exitval = v) ∧
    (∀ s curpid t nonnull r x,
      alist_get s.heap t = some (applyOps p0 (l1 ++ PtcbOp.exitW v :: l2)) →
      sys_ThreadJoin_resume s curpid t nonnull = some r →
      r.out = some x → x = v) ∧
    (∀ s curpid tid s2 evs,
      sys_ThreadExit s curpid tid v = Except.ok (s2, evs) →
      evs.take 3 = [Ev.writeExitval tid v, Ev.setExited tid, Ev.bcastExitCv tid]) := by
  have hmain : (applyOps p0 (l1 ++ PtcbOp.exitW v :: l2)).exited = true ∧
      (applyOps p0 (l1 ++ PtcbOp.exitW v :: l2)).exitval = v := by
    rw [applyOps_append]
    have hx : applyOps (applyOps p0 l1) (PtcbOp.exitW v :: l2)
        = applyOps (applyOp (applyOps p0 l1) (PtcbOp.exitW v)) l2 := by
      simp only [applyOps, List.foldl_cons]
    rw [hx]
    obtain ⟨he, hv⟩ := applyOps_no_exitW (applyOp (applyOps p0 l1) (PtcbOp.exitW v)) l2 h2
    exact ⟨by rw [he]; rfl, by rw [hv]; rfl⟩
  refine ⟨hmain, ?_, ?_⟩
  · intro s curpid t nonnull r x hp hres hout
    rw [sys_ThreadJoin_resume, hp] at hres
    simp only [] at hres
    by_cases hd : (decrease_refcount (applyOps p0 (l1 ++ PtcbOp.exitW v :: l2))).detached
    · rw [if_pos hd] at hres
      simp only [Option.some.injEq] at hres
      subst hres
      simp at hout
    · rw [if_neg hd] at hres
      by_cases hrc : (decrease_refcount (applyOps p0 (l1 ++ PtcbOp.exitW v :: l2))).refcount = 1
      · rw [if_pos hrc] at hres
        simp only [Option.some.injEq] at hres
        subst hres
        cases hnn : nonnull <;> rw [hnn] at hout <;> simp at hout
        rw [← hout]
        exact hmain.2
      · rw [if_neg hrc] at hres
        simp only [Option.some.injEq] at hres
        subst hres
        cases hnn : nonnull <;> rw [hnn] at hout <;> simp at hout
        rw [← hout]
        exact hmain.2
  · intro s curpid tid s2 evs h
    exact sys_ThreadExit_trace_shape s curpid tid v s2 evs h

/-- Witness for C3: the interleaving join-register, exit(7), join-unregister
leaves the PTCB exited with exitval 7. -/
theorem exitval_handoff_witness :
    (applyOps ptcbLive ([PtcbOp.incRef] ++ PtcbOp.exitW 7 :: [PtcbOp.decRef])).exited = true ∧
    (applyOps ptcbLive ([PtcbOp.incRef] ++ PtcbOp.exitW 7 :: [PtcbOp.decRef])).exitval = 7 :=
  (exitval_handoff ptcbLive [PtcbOp.incRef] [PtcbOp.decRef] 7 (by decide)).1

/-!  Claim C8. -/

theorem invP_some_eq (s : Sys) (pid : Nat) (c : PCB)
    (hc : alist_get s.procs pid = some c) :
    invP s pid
      = decide ((countNonExited s.heap c.ptcb_list : Int) = c.thread_count) := by
  unfold invP
  rw [hc]

theorem invP_none_eq (s : Sys) (pid : Nat)
    (hc : alist_get s.procs pid = none) : invP s pid = true := by
  unfold invP
  rw [hc]

/-- C8: for every process the number of non-exited PTCBs in its collection
equals its thread_count, and every operation of the core preserves this
equality for the acting process: sys_CreateThread inserts one non-exited PTCB
while incrementing thread_count, sys_ThreadExit sets exited before
decrementing thread_count, sys_ThreadJoin's resume removes only an
already-exited PTCB, and detach and the join prologue touch neither side. -/
theorem thread_count_invariant_preserved (pid : Nat) (s s2 : Sys)
    (hstep : Step pid s s2) (hinv : invP s pid = true) : invP s2 pid = true := by
  cases hstep with
  | create _ _ newTid hfresh hfresh2 =>
    cases hc : alist_get s.procs pid with
    | none =>
      have hc2 : alist_get (sys_CreateThread s pid newTid).2.procs pid = none := by
        show alist_get (alist_mod (alist_mod s.procs pid (ptcb_append newTid)) pid tc_inc) pid = none
        rw [alist_get_mod_eq, alist_get_mod_eq, hc]
        rfl
      rw [invP_none_eq (sys_CreateThread s pid newTid).2 pid hc2]
    | some cur =>
      have hc2 : alist_get (sys_CreateThread s pid newTid).2.procs pid
          = some (tc_inc (ptcb_append newTid cur)) := by
        show alist_get (alist_mod (alist_mod s.procs pid (ptcb_append newTid)) pid tc_inc) pid
          = some (tc_inc (ptcb_append newTid cur))
        rw [alist_get_mod_eq, alist_get_mod_eq, hc]
        rfl
      rw [invP_some_eq (sys_CreateThread s pid newTid).2 pid _ hc2, decide_eq_true_eq]
      rw [invP_some_eq s pid cur hc, decide_eq_true_eq] at hinv
      show (countNonExited ((newTid, ⟨false, false, 0, 0⟩) :: s.heap)
          (cur.ptcb_list ++ [newTid]) : Int) = cur.thread_count + 1
      rw [countNonExited_append_fresh s.heap cur.ptcb_list newTid
        ⟨false, false, 0, 0⟩ hfresh (hfresh2 cur hc) rfl]
      push_cast
      omega
  | detach _ _ t r _ evs h =>
    rw [sys_ThreadDetach] at h
    split at h
    · exact absurd h (by simp)
    · rename_i cur hcur
      by_cases hm : rlist_find cur.ptcb_list t
      · rw [if_neg (by simp [hm])] at h
        split at h
        · exact absurd h (by simp)
        · rename_i p hp
          by_cases hex2 : p.exited
          · rw [if_pos hex2] at h
            simp only [Option.some.injEq, Prod.mk.injEq] at h
            obtain ⟨_, hs2, _⟩ := h
            rw [← hs2]
            exact hinv
          · rw [if_neg hex2] at h
            simp only [Option.some.injEq, Prod.mk.injEq] at h
            obtain ⟨_, hs2, _⟩ := h
            rw [← hs2]
            cases hc2 : alist_get s.procs pid with
            | none =>
              rw [invP_none_eq
                ({ s with heap := alist_set s.heap t { p with detached := true } })
                pid hc2]
            | some c =>
              rw [invP_some_eq
                ({ s with heap := alist_set s.heap t { p with detached := true } })
                pid c hc2, decide_eq_true_eq]
              rw [invP_some_eq s pid c hc2, decide_eq_true_eq] at hinv
              show (countNonExited (alist_set s.heap t { p with detached := true })
                c.ptcb_list : Int) = c.thread_count
              rw [countNonExited_set_same s.heap t { p with detached := true } p hp rfl]
              exact hinv
      · rw [if_pos (by simp [hm])] at h
        simp only [Option.some.injEq, Prod.mk.injEq] at h
        obtain ⟨_, hs2, _⟩ := h
        rw [← hs2]
        exact hinv
  | joinPre _ _ selfTid t _ p h =>
    rw [sys_ThreadJoin_pre] at h
    split at h
    · exact absurd h (by simp)
    · rename_i cur hcur
      by_cases hm : rlist_find cur.ptcb_list t
      · rw [if_neg (by simp [hm])] at h
        by_cases hself : selfTid = t
        · rw [if_pos hself] at h
          exact absurd h (by simp)
        · rw [if_neg hself] at h
          split at h
          · exact absurd h (by simp)
          · rename_i q hq
            by_cases hd : q.detached
            · rw [if_pos hd] at h
              exact absurd h (by simp)
            · rw [if_neg hd] at h
              simp only [Option.some.injEq, Except.ok.injEq, Prod.mk.injEq] at h
              obtain ⟨hs2, _⟩ := h
              rw [← hs2]
              cases hc2 : alist_get s.procs pid with
              | none =>
                rw [invP_none_eq
                  ({ s with heap := alist_set s.heap t (increase_refcount q) })
                  pid hc2]
              | some c =>
                rw [invP_some_eq
                  ({ s with heap := alist_set s.heap t (increase_refcount q) })
                  pid c hc2, decide_eq_true_eq]
                rw [invP_some_eq s pid c hc2, decide_eq_true_eq] at hinv
                show (countNonExited (alist_set s.heap t (increase_refcount q))
                  c.ptcb_list : Int) = c.thread_count
                rw [countNonExited_set_same s.heap t (increase_refcount q) q hq rfl]
                exact hinv
      · rw [if_pos (by simp [hm])] at h
        exact absurd h (by simp)
  | joinResume _ _ t nonnull p r hp hwoken h =>
    rw [sys_ThreadJoin_resume, hp] at h
    simp only [] at h
    by_cases hd : (decrease_refcount p).detached
    · rw [if_pos hd] at h
      simp only [Option.some.injEq] at h
      rw [← h]
      cases hc2 : alist_get s.procs pid with
      | none =>
        rw [invP_none_eq
          ({ s with heap := alist_set s.heap t (decrease_refcount p) })
          pid hc2]
      | some c =>
        rw [invP_some_eq
          ({ s with heap := alist_set s.heap t (decrease_refcount p) })
          pid c hc2, decide_eq_true_eq]
        rw [invP_some_eq s pid c hc2, decide_eq_true_eq] at hinv
        show (countNonExited (alist_set s.heap t (decrease_refcount p))
          c.ptcb_list : Int) = c.thread_count
        rw [countNonExited_set_same s.heap t (decrease_refcount p) p hp rfl]
        exact hinv
    · have hex : p.exited = true := by
        rcases hwoken with hw | hw
        · exact absurd hw (by simpa [decrease_refcount] using hd)
        · exact hw
      by_cases hrc : (decrease_refcount p).refcount = 1
      · rw [if_neg hd, if_pos hrc] at h
        simp only [Option.some.injEq] at h
        rw [← h]
        cases hc2 : alist_get s.procs pid with
        | none =>
          have hc3 : alist_get (alist_mod s.procs pid (ptcb_erase t)) pid = none := by
            rw [alist_get_mod_eq, hc2]
            rfl
          rw [invP_none_eq
            ({ procs := alist_mod s.procs pid (ptcb_erase t),
               heap := alist_erase (alist_set s.heap t (decrease_refcount p)) t })
            pid hc3]
        | some c =>
          have hc3 : alist_get (alist_mod s.procs pid (ptcb_erase t)) pid
              = some (ptcb_erase t c) := by
            rw [alist_get_mod_eq, hc2]
            rfl
          rw [invP_some_eq
            ({ procs := alist_mod s.procs pid (ptcb_erase t),
               heap := alist_erase (alist_set s.heap t (decrease_refcount p)) t })
            pid _ hc3, decide_eq_true_eq]
          rw [invP_some_eq s pid c hc2, decide_eq_true_eq] at hinv
          show (countNonExited (alist_erase (alist_set s.heap t (decrease_refcount p)) t)
            (c.ptcb_list.erase t) : Int) = c.thread_count
          have hsame : ∀ x ∈ c.ptcb_list.erase t,
              liveIn (alist_erase (alist_set s.heap t (decrease_refcount p)) t) x
                = liveIn s.heap x := by
            intro x _
            by_cases hx : x = t
            · subst hx
              rw [liveIn, alist_get_erase_eq, liveIn, hp]
              simp [hex]
            · rw [liveIn, alist_get_erase_ne _ _ _ hx, alist_get_set_ne _ _ _ _ hx, liveIn]
          rw [countNonExited_congr _ s.heap _ hsame]
          have herase : countNonExited s.heap (c.ptcb_list.erase t)
              = countNonExited s.heap c.ptcb_list := by
            rw [countNonExited, countNonExited]
            exact length_filter_erase_false c.ptcb_list (liveIn s.heap) t
              (by rw [liveIn, hp]; simp [hex])
          rw [herase]
          exact hinv
      · rw [if_neg hd, if_neg hrc] at h
        simp only [Option.some.injEq] at h
        rw [← h]
        cases hc2 : alist_get s.procs pid with
        | none =>
          rw [invP_none_eq
            ({ s with heap := alist_set s.heap t (decrease_refcount p) })
            pid hc2]
        | some c =>
          rw [invP_some_eq
            ({ s with heap := alist_set s.heap t (decrease_refcount p) })
            pid c hc2, decide_eq_true_eq]
          rw [invP_some_eq s pid c hc2, decide_eq_true_eq] at hinv
          show (countNonExited (alist_set s.heap t (decrease_refcount p))
            c.ptcb_list : Int) = c.thread_count
          rw [countNonExited_set_same s.heap t (decrease_refcount p) p hp rfl]
          exact hinv
  | texit _ _ tid v p _ evs hp hex hmem h =>
    obtain ⟨hheap, hproj⟩ := sys_ThreadExit_ok_proj s pid tid v p s2 evs hp h
    cases hc : alist_get s.procs pid with
    | none =>
      rw [hc] at hproj
      cases hg2 : alist_get s2.procs pid with
      | none => rw [invP_none_eq s2 pid hg2]
      | some c2 =>
        rw [hg2] at hproj
        simp at hproj
    | some c =>
      rw [hc] at hproj
      cases hg2 : alist_get s2.procs pid with
      | none =>
        rw [hg2] at hproj
        simp at hproj
      | some c2 =>
        rw [hg2] at hproj
        simp only [Option.map_some', Option.some.injEq, tlProj, Prod.mk.injEq] at hproj
        obtain ⟨hlist, htc⟩ := hproj
        rw [invP_some_eq s2 pid c2 hg2, decide_eq_true_eq]
        rw [invP_some_eq s pid c hc, decide_eq_true_eq] at hinv
        rw [hheap, hlist, htc]
        have hflip := length_filter_flip c.ptcb_list
          (liveIn s.heap)
          (liveIn (alist_set s.heap tid { p with exitval := v, exited := true }))
          tid (hmem c hc)
          (by rw [liveIn, hp]; simp [hex])
          (by rw [liveIn, alist_get_set_eq, hp]; simp)
          (by
            intro x _ hx
            rw [liveIn, liveIn, alist_get_set_ne _ _ _ _ hx])
        rw [countNonExited] at hinv ⊢
        omega

/-- Witness for C8: creating thread 6 in process 2 of sweepBugSys preserves
the count invariant. -/
theorem thread_count_invariant_preserved_witness :
    invP (sys_CreateThread sweepBugSys 2 6).2 2 = true :=
  thread_count_invariant_preserved 2 sweepBugSys _
    (Step.create sweepBugSys 2 6 (by decide)
      (by
        intro c hc
        have h0 : alist_get sweepBugSys.procs 2 = some userPCB := by decide
        rw [h0] at hc
        obtain rfl : userPCB = c := Option.some.inj hc
        decide))
    (by decide)

/-!  Claim C7: helper lemmas. -/

theorem alist_get_mod_map_eq {α β : Type} (m : List (Nat × α)) (k : Nat)
    (f : α → α) (g : α → β) :
    (alist_get (alist_mod m k f) k).map g = (alist_get m k).map (fun x => g (f x)) := by
  rw [alist_get_mod_eq]
  cases alist_get m k <;> simp

theorem reparent_get_ne (cs : List Nat) (procs : List (Nat × PCB)) (k : Nat)
    (hk : k ∉ cs) (h1 : k ≠ 1) :
    alist_get (reparent procs cs) k = alist_get procs k := by
  induction cs generalizing procs with
  | nil => rfl
  | cons c rest ih =>
    rw [reparent, ih _ (List.not_mem_of_not_mem_cons hk),
      alist_get_mod_ne _ _ _ _ h1,
      alist_get_mod_ne _ _ _ _ (List.ne_of_not_mem_cons hk)]

theorem teardown_rest_ready (procs : List (Nat × PCB)) (heap : List (Nat × PTCB))
    (curpid : Nat) (evs : List Ev) (c : PCB)
    (hc : alist_get procs curpid = some c)
    (hch : c.children_list = [])
    (hex : c.exited_list = [])
    (hpt : c.ptcb_list ≠ []) :
    teardown_rest ⟨procs, heap⟩ curpid evs
      = Except.ok (⟨alist_mod procs curpid pcb_cleanup, heap⟩, evs) := by
  have hpr : pread procs curpid = c := by
    rw [pread, hc]
    rfl
  rw [teardown_rest]
  simp only []
  rw [hpr, if_neg (by simp [hch]), if_neg (by simp [hex]),
    if_neg (by simp [is_rlist_empty, List.isEmpty_iff, hpt])]

theorem teardown_nonroot_ok (procs : List (Nat × PCB)) (heap : List (Nat × PTCB))
    (curpid : Nat) (cur root : PCB)
    (hnr : curpid ≠ 1)
    (hcur : alist_get procs curpid = some cur)
    (hroot : alist_get procs 1 = some root)
    (hcself : curpid ∉ cur.children_list)
    (hparcur : cur.parent ≠ curpid)
    (hsweep : cur.ptcb_list ≠ []) :
    teardown ⟨procs, heap⟩ curpid
      = Except.ok
          (⟨alist_mod
              (alist_mod
                (if cur.exited_list.isEmpty then
                  alist_mod (reparent procs cur.children_list) curpid clear_children
                 else
                  alist_mod
                    (alist_mod
                      (alist_mod (reparent procs cur.children_list) curpid clear_children)
                      1 (append_exited cur.exited_list))
                    curpid clear_exited)
                cur.parent (push_exited curpid))
              curpid pcb_cleanup,
            heap⟩,
           (if cur.exited_list.isEmpty then [] else [Ev.bcastChildExit 1])
             ++ [Ev.bcastChildExit cur.parent]) := by
  have hpr0 : pread procs curpid = cur := by
    rw [pread, hcur]
    rfl
  have hgetB : alist_get
      (alist_mod (reparent procs cur.children_list) curpid clear_children) curpid
      = some (clear_children cur) := by
    rw [alist_get_mod_eq, reparent_get_ne _ _ _ hcself hnr, hcur]
    rfl
  have hprB : pread
      (alist_mod (reparent procs cur.children_list) curpid clear_children) curpid
      = clear_children cur := by
    rw [pread, hgetB]
    rfl
  by_cases hexd : cur.exited_list.isEmpty
  · rw [if_pos hexd, if_pos hexd]
    rw [teardown, if_pos hnr]
    simp only []
    rw [hroot]
    simp only []
    rw [hpr0, hprB, show (clear_children cur).exited_list = cur.exited_list from rfl]
    rw [if_neg (by simp [hexd])]
    simp only []
    rw [hprB, show (clear_children cur).parent = cur.parent from rfl]
    have hgetD0 : alist_get
        (alist_mod
          (alist_mod (reparent procs cur.children_list) curpid clear_children)
          cur.parent (push_exited curpid)) curpid
        = some (clear_children cur) := by
      rw [alist_get_mod_ne _ _ _ _ (Ne.symm hparcur), hgetB]
    rw [teardown_rest_ready _ heap curpid _ (clear_children cur) hgetD0
      rfl (List.isEmpty_iff.mp hexd) hsweep]
  · rw [if_neg hexd, if_neg hexd]
    have hexed : cur.exited_list ≠ [] := by
      simpa [List.isEmpty_iff] using hexd
    have hgetC : alist_get
        (alist_mod
          (alist_mod
            (alist_mod (reparent procs cur.children_list) curpid clear_children)
            1 (append_exited cur.exited_list))
          curpid clear_exited) curpid
        = some (clear_exited (clear_children cur)) := by
      rw [alist_get_mod_eq, alist_get_mod_ne _ _ _ _ hnr, hgetB]
      rfl
    have hprC : pread
        (alist_mod
          (alist_mod
            (alist_mod (reparent procs cur.children_list) curpid clear_children)
            1 (append_exited cur.exited_list))
          curpid clear_exited) curpid
        = clear_exited (clear_children cur) := by
      rw [pread, hgetC]
      rfl
    rw [teardown, if_pos hnr]
    simp only []
    rw [hroot]
    simp only []
    rw [hpr0, hprB, show (clear_children cur).exited_list = cur.exited_list from rfl]
    rw [if_pos (by simp [List.isEmpty_iff, hexed])]
    simp only []
    rw [hprC, show (clear_exited (clear_children cur)).parent = cur.parent from rfl]
    have hgetD : alist_get
        (alist_mod
          (alist_mod
            (alist_mod
              (alist_mod (reparent procs cur.children_list) curpid clear_children)
              1 (append_exited cur.exited_list))
            curpid clear_exited)
          cur.parent (push_exited curpid)) curpid
        = some (clear_exited (clear_children cur)) := by
      rw [alist_get_mod_ne _ _ _ _ (Ne.symm hparcur), hgetC]
    rw [teardown_rest_ready _ heap curpid _ (clear_exited (clear_children cur)) hgetD
      rfl rfl hsweep]

/-- C7: when the last thread of a non-root process exits, sys_ThreadExit
re-parents every entry of the process's children collection to the root
process (each moved child ends up in the root's children with its parent
pointer rewritten to pid 1), concatenates any non-empty exited-children
collection onto the root's and broadcasts the root's child-exit condition
(when that collection is empty nothing is handed over and that broadcast is
absent from the trace), and inserts the exiting process itself at the front
of its parent's exited-children collection followed by a broadcast of the
parent's child-exit condition; the trace shows exactly these broadcasts. -/
theorem threadExit_teardown_reparent_publish (s : Sys) (curpid tid : Nat)
    (v : Int) (p : PTCB) (cur root : PCB)
    (hp : alist_get s.heap tid = some p)
    (hcur : alist_get s.procs curpid = some cur)
    (hroot : alist_get s.procs 1 = some root)
    (hnotroot : curpid ≠ 1)
    (hparcur : cur.parent ≠ curpid)
    (hcself : curpid ∉ cur.children_list)
    (hlast : cur.thread_count = 1)
    (hsweep : cur.ptcb_list ≠ [])
    (hkids : ∀ c ∈ cur.children_list, (alist_get s.procs c).isSome = true) :
    ∃ s2, sys_ThreadExit s curpid tid v
        = Except.ok (s2,
            [Ev.writeExitval tid v, Ev.setExited tid, Ev.bcastExitCv tid]
              ++ (if cur.exited_list.isEmpty then [] else [Ev.bcastChildExit 1])
              ++ [Ev.bcastChildExit cur.parent, Ev.sleepExited]) ∧
      (alist_get s2.procs 1).map PCB.children_list
        = some (cur.children_list.reverse ++ root.children_list) ∧
      (∀ c ∈ cur.children_list, (alist_get s2.procs c).map PCB.parent = some 1) ∧
      (cur.parent = 1 →
        (alist_get s2.procs 1).map PCB.exited_list
          = some (curpid :: (root.exited_list ++ cur.exited_list))) ∧
      (cur.parent ≠ 1 →
        (alist_get s2.procs 1).map PCB.exited_list
          = some (root.exited_list ++ cur.exited_list) ∧
        (alist_get s2.procs cur.parent).map PCB.exited_list
          = (alist_get s.procs cur.parent).map (fun q => curpid :: q.exited_list)) := by
  have hP1cur : alist_get (alist_mod s.procs curpid tc_dec) curpid
      = some (tc_dec cur) := by
    rw [alist_get_mod_eq, hcur]
    rfl
  have hP1root : alist_get (alist_mod s.procs curpid tc_dec) 1 = some root := by
    rw [alist_get_mod_ne _ _ _ _ (Ne.symm hnotroot)]
    exact hroot
  have htd := teardown_nonroot_ok (alist_mod s.procs curpid tc_dec)
    (alist_set s.heap tid { p with exitval := v, exited := true }) curpid
    (tc_dec cur) root hnotroot hP1cur hP1root hcself hparcur hsweep
  rw [show (tc_dec cur).children_list = cur.children_list from rfl,
      show (tc_dec cur).exited_list = cur.exited_list from rfl,
      show (tc_dec cur).parent = cur.parent from rfl] at htd
  have hcond : cur.thread_count - 1 = 0 := by
    rw [hlast]
    exact sub_self 1
  have hB1ex : (alist_get
      (alist_mod (reparent (alist_mod s.procs curpid tc_dec) cur.children_list)
        curpid clear_children) 1).map PCB.exited_list
      = some root.exited_list := by
    rw [alist_get_mod_proj _ curpid 1 clear_children PCB.exited_list (fun x => rfl)]
    rw [reparent_proj PCB.exited_list (fun x => rfl) (fun c x => rfl)]
    rw [hP1root]
    rfl
  by_cases hexd : cur.exited_list.isEmpty
  · rw [if_pos hexd, if_pos hexd] at htd
    have hexnil : cur.exited_list = [] := List.isEmpty_iff.mp hexd
    have hrun : sys_ThreadExit s curpid tid v
        = Except.ok
            (⟨alist_mod
                (alist_mod
                  (alist_mod
                    (reparent (alist_mod s.procs curpid tc_dec) cur.children_list)
                    curpid clear_children)
                  cur.parent (push_exited curpid))
                curpid pcb_cleanup,
              alist_set s.heap tid { p with exitval := v, exited := true }⟩,
             [Ev.writeExitval tid v, Ev.setExited tid, Ev.bcastExitCv tid]
               ++ (if cur.exited_list.isEmpty then [] else [Ev.bcastChildExit 1])
               ++ [Ev.bcastChildExit cur.parent, Ev.sleepExited]) := by
      rw [if_pos hexd]
      simp only [sys_ThreadExit, hp, hcur]
      rw [if_pos hcond, htd]
      rfl
    refine ⟨_, hrun, ?_, ?_, ?_, ?_⟩
    · show (alist_get
        (alist_mod
          (alist_mod
            (alist_mod
              (reparent (alist_mod s.procs curpid tc_dec) cur.children_list)
              curpid clear_children)
            cur.parent (push_exited curpid))
          curpid pcb_cleanup) 1).map PCB.children_list = _
      rw [alist_get_mod_proj _ curpid 1 pcb_cleanup PCB.children_list (fun x => rfl)]
      rw [alist_get_mod_proj _ cur.parent 1 (push_exited curpid) PCB.children_list
        (fun x => rfl)]
      rw [alist_get_mod_ne _ curpid 1 clear_children (Ne.symm hnotroot)]
      rw [reparent_root_children]
      rw [hP1root]
      simp
    · intro c hcm
      show (alist_get
        (alist_mod
          (alist_mod
            (alist_mod
              (reparent (alist_mod s.procs curpid tc_dec) cur.children_list)
              curpid clear_children)
            cur.parent (push_exited curpid))
          curpid pcb_cleanup) c).map PCB.parent = some 1
      rw [alist_get_mod_proj _ curpid c pcb_cleanup PCB.parent (fun x => rfl)]
      rw [alist_get_mod_proj _ cur.parent c (push_exited curpid) PCB.parent (fun x => rfl)]
      rw [alist_get_mod_proj _ curpid c clear_children PCB.parent (fun x => rfl)]
      exact reparent_sets_parent cur.children_list _ c hcm
        (by rw [alist_mod_isSome]; exact hkids c hcm)
    · intro hpar
      show (alist_get
        (alist_mod
          (alist_mod
            (alist_mod
              (reparent (alist_mod s.procs curpid tc_dec) cur.children_list)
              curpid clear_children)
            cur.parent (push_exited curpid))
          curpid pcb_cleanup) 1).map PCB.exited_list = _
      rw [alist_get_mod_proj _ curpid 1 pcb_cleanup PCB.exited_list (fun x => rfl)]
      rw [hpar, alist_get_mod_eq]
      cases hgb : alist_get
          (alist_mod (reparent (alist_mod s.procs curpid tc_dec) cur.children_list)
            curpid clear_children) 1 with
      | none =>
        rw [hgb] at hB1ex
        simp at hB1ex
      | some b =>
        rw [hgb] at hB1ex
        simp only [Option.map_some', Option.some.injEq] at hB1ex
        simp [push_exited, hB1ex, hexnil]
    · intro hpar
      constructor
      · show (alist_get
          (alist_mod
            (alist_mod
              (alist_mod
                (reparent (alist_mod s.procs curpid tc_dec) cur.children_list)
                curpid clear_children)
              cur.parent (push_exited curpid))
            curpid pcb_cleanup) 1).map PCB.exited_list = _
        rw [alist_get_mod_proj _ curpid 1 pcb_cleanup PCB.exited_list (fun x => rfl)]
        rw [alist_get_mod_ne _ cur.parent 1 (push_exited curpid) (Ne.symm hpar)]
        rw [hB1ex, hexnil]
        simp
      · have hBpar : (alist_get
            (alist_mod (reparent (alist_mod s.procs curpid tc_dec) cur.children_list)
              curpid clear_children) cur.parent).map PCB.exited_list
            = (alist_get s.procs cur.parent).map PCB.exited_list := by
          rw [alist_get_mod_ne _ curpid cur.parent clear_children hparcur]
          rw [reparent_proj PCB.exited_list (fun x => rfl) (fun c x => rfl)]
          rw [alist_get_mod_ne _ curpid cur.parent tc_dec hparcur]
        show (alist_get
          (alist_mod
            (alist_mod
              (alist_mod
                (reparent (alist_mod s.procs curpid tc_dec) cur.children_list)
                curpid clear_children)
              cur.parent (push_exited curpid))
            curpid pcb_cleanup) cur.parent).map PCB.exited_list = _
        rw [alist_get_mod_proj _ curpid cur.parent pcb_cleanup PCB.exited_list
          (fun x => rfl)]
        rw [alist_get_mod_eq]
        cases hgc : alist_get
            (alist_mod (reparent (alist_mod s.procs curpid tc_dec) cur.children_list)
              curpid clear_children) cur.parent with
        | none =>
          rw [hgc] at hBpar
          cases hgs : alist_get s.procs cur.parent with
          | none => simp
          | some q =>
            rw [hgs] at hBpar
            simp at hBpar
        | some cc =>
          rw [hgc] at hBpar
          cases hgs : alist_get s.procs cur.parent with
          | none =>
            rw [hgs] at hBpar
            simp at hBpar
          | some q =>
            rw [hgs] at hBpar
            simp only [Option.map_some', Option.some.injEq] at hBpar
            simp [push_exited, hBpar]
  · rw [if_neg hexd, if_neg hexd] at htd
    have hC1ex : (alist_get
        (alist_mod
          (alist_mod
            (alist_mod (reparent (alist_mod s.procs curpid tc_dec) cur.children_list)
              curpid clear_children)
            1 (append_exited cur.exited_list))
          curpid clear_exited) 1).map PCB.exited_list
        = some (root.exited_list ++ cur.exited_list) := by
      rw [alist_get_mod_ne _ curpid 1 clear_exited (Ne.symm hnotroot), alist_get_mod_eq]
      cases hgb : alist_get
          (alist_mod (reparent (alist_mod s.procs curpid tc_dec) cur.children_list)
            curpid clear_children) 1 with
      | none =>
        rw [hgb] at hB1ex
        simp at hB1ex
      | some b =>
        rw [hgb] at hB1ex
        simp only [Option.map_some', Option.some.injEq] at hB1ex
        simp [append_exited, hB1ex]
    have hrun : sys_ThreadExit s curpid tid v
        = Except.ok
            (⟨alist_mod
                (alist_mod
                  (alist_mod
                    (alist_mod
                      (alist_mod
                        (reparent (alist_mod s.procs curpid tc_dec) cur.children_list)
                        curpid clear_children)
                      1 (append_exited cur.exited_list))
                    curpid clear_exited)
                  cur.parent (push_exited curpid))
                curpid pcb_cleanup,
              alist_set s.heap tid { p with exitval := v, exited := true }⟩,
             [Ev.writeExitval tid v, Ev.setExited tid, Ev.bcastExitCv tid]
               ++ (if cur.exited_list.isEmpty then [] else [Ev.bcastChildExit 1])
               ++ [Ev.bcastChildExit cur.parent, Ev.sleepExited]) := by
      rw [if_neg hexd]
      simp only [sys_ThreadExit, hp, hcur]
      rw [if_pos hcond, htd]
      rfl
    refine ⟨_, hrun, ?_, ?_, ?_, ?_⟩
    · show (alist_get
        (alist_mod
          (alist_mod
            (alist_mod
              (alist_mod
                (alist_mod
                  (reparent (alist_mod s.procs curpid tc_dec) cur.children_list)
                  curpid clear_children)
                1 (append_exited cur.exited_list))
              curpid clear_exited)
            cur.parent (push_exited curpid))
          curpid pcb_cleanup) 1).map PCB.children_list = _
      rw [alist_get_mod_proj _ curpid 1 pcb_cleanup PCB.children_list (fun x => rfl)]
      rw [alist_get_mod_proj _ cur.parent 1 (push_exited curpid) PCB.children_list
        (fun x => rfl)]
      rw [alist_get_mod_proj _ curpid 1 clear_exited PCB.children_list (fun x => rfl)]
      rw [alist_get_mod_proj _ 1 1 (append_exited cur.exited_list) PCB.children_list
        (fun x => rfl)]
      rw [alist_get_mod_ne _ curpid 1 clear_children (Ne.symm hnotroot)]
      rw [reparent_root_children]
      rw [hP1root]
      simp
    · intro c hcm
      show (alist_get
        (alist_mod
          (alist_mod
            (alist_mod
              (alist_mod
                (alist_mod
                  (reparent (alist_mod s.procs curpid tc_dec) cur.children_list)
                  curpid clear_children)
                1 (append_exited cur.exited_list))
              curpid clear_exited)
            cur.parent (push_exited curpid))
          curpid pcb_cleanup) c).map PCB.parent = some 1
      rw [alist_get_mod_proj _ curpid c pcb_cleanup PCB.parent (fun x => rfl)]
      rw [alist_get_mod_proj _ cur.parent c (push_exited curpid) PCB.parent (fun x => rfl)]
      rw [alist_get_mod_proj _ curpid c clear_exited PCB.parent (fun x => rfl)]
      rw [alist_get_mod_proj _ 1 c (append_exited cur.exited_list) PCB.parent (fun x => rfl)]
      rw [alist_get_mod_proj _ curpid c clear_children PCB.parent (fun x => rfl)]
      exact reparent_sets_parent cur.children_list _ c hcm
        (by rw [alist_mod_isSome]; exact hkids c hcm)
    · intro hpar
      show (alist_get
        (alist_mod
          (alist_mod
            (alist_mod
              (alist_mod
                (alist_mod
                  (reparent (alist_mod s.procs curpid tc_dec) cur.children_list)
                  curpid clear_children)
                1 (append_exited cur.exited_list))
              curpid clear_exited)
            cur.parent (push_exited curpid))
          curpid pcb_cleanup) 1).map PCB.exited_list = _
      rw [alist_get_mod_proj _ curpid 1 pcb_cleanup PCB.exited_list (fun x => rfl)]
      rw [hpar, alist_get_mod_eq]
      cases hgc : alist_get
          (alist_mod
            (alist_mod
              (alist_mod (reparent (alist_mod s.procs curpid tc_dec) cur.children_list)
                curpid clear_children)
              1 (append_exited cur.exited_list))
            curpid clear_exited) 1 with
      | none =>
        rw [hgc] at hC1ex
        simp at hC1ex
      | some cc =>
        rw [hgc] at hC1ex
        simp only [Option.map_some', Option.some.injEq] at hC1ex
        simp [push_exited, hC1ex]
    · intro hpar
      constructor
      · show (alist_get
          (alist_mod
            (alist_mod
              (alist_mod
                (alist_mod
                  (alist_mod
                    (reparent (alist_mod s.procs curpid tc_dec) cur.children_list)
                    curpid clear_children)
                  1 (append_exited cur.exited_list))
                curpid clear_exited)
              cur.parent (push_exited curpid))
            curpid pcb_cleanup) 1).map PCB.exited_list = _
        rw [alist_get_mod_proj _ curpid 1 pcb_cleanup PCB.exited_list (fun x => rfl)]
        rw [alist_get_mod_ne _ cur.parent 1 (push_exited curpid) (Ne.symm hpar)]
        exact hC1ex
      · have hCpar : (alist_get
            (alist_mod
              (alist_mod
                (alist_mod (reparent (alist_mod s.procs curpid tc_dec) cur.children_list)
                  curpid clear_children)
                1 (append_exited cur.exited_list))
              curpid clear_exited) cur.parent).map PCB.exited_list
            = (alist_get s.procs cur.parent).map PCB.exited_list := by
          rw [alist_get_mod_ne _ curpid cur.parent clear_exited hparcur]
          rw [alist_get_mod_ne _ 1 cur.parent (append_exited cur.exited_list) hpar]
          rw [alist_get_mod_ne _ curpid cur.parent clear_children hparcur]
          rw [reparent_proj PCB.exited_list (fun x => rfl) (fun c x => rfl)]
          rw [alist_get_mod_ne _ curpid cur.parent tc_dec hparcur]
        show (alist_get
          (alist_mod
            (alist_mod
              (alist_mod
                (alist_mod
                  (alist_mod
                    (reparent (alist_mod s.procs curpid tc_dec) cur.children_list)
                    curpid clear_children)
                  1 (append_exited cur.exited_list))
                curpid clear_exited)
              cur.parent (push_exited curpid))
            curpid pcb_cleanup) cur.parent).map PCB.exited_list = _
        rw [alist_get_mod_proj _ curpid cur.parent pcb_cleanup PCB.exited_list
          (fun x => rfl)]
        rw [alist_get_mod_eq]
        cases hgc : alist_get
            (alist_mod
              (alist_mod
                (alist_mod (reparent (alist_mod s.procs curpid tc_dec) cur.children_list)
                  curpid clear_children)
                1 (append_exited cur.exited_list))
              curpid clear_exited) cur.parent with
        | none =>
          rw [hgc] at hCpar
          cases hgs : alist_get s.procs cur.parent with
          | none => simp
          | some q =>
            rw [hgs] at hCpar
            simp at hCpar
        | some cc =>
          rw [hgc] at hCpar
          cases hgs : alist_get s.procs cur.parent with
          | none =>
            rw [hgs] at hCpar
            simp at hCpar
          | some q =>
            rw [hgs] at hCpar
            simp only [Option.map_some', Option.some.injEq] at hCpar
            simp [push_exited, hCpar]

/-- Witness for C7: in nonRootExitSys, process 2 (child 3, exited child 4,
parent 1) runs its last thread 5: afterwards the root's children are [3, 2],
the root's exited list is [2, 4] and child 3's parent is the root; in
nonRootExitSys2 the same process has no unreaped exited child, and after the
exit the root's children are again [3, 2], the root's exited list is just [2]
and child 3's parent is the root. -/
theorem threadExit_teardown_reparent_publish_witness :
    ((sys_ThreadExit nonRootExitSys 2 5 99).toOption.map
        (fun x => ((alist_get x.1.procs 1).map PCB.children_list,
                   (alist_get x.1.procs 1).map PCB.exited_list,
                   (alist_get x.1.procs 3).map PCB.parent))
      = some (some [3, 2], some [2, 4], some 1)) ∧
    ((sys_ThreadExit nonRootExitSys2 2 5 99).toOption.map
        (fun x => ((alist_get x.1.procs 1).map PCB.children_list,
                   (alist_get x.1.procs 1).map PCB.exited_list,
                   (alist_get x.1.procs 3).map PCB.parent))
      = some (some [3, 2], some [2], some 1)) := by
  constructor
  · obtain ⟨s2, hrun, hch, hpar, hex1, _⟩ :=
      threadExit_teardown_reparent_publish nonRootExitSys 2 5 99 ptcbLive
        ⟨1, [3], [4], [5], 1, false, [], true, PState.ALIVE⟩
        ⟨1, [2], [], [9], 1, false, [], true, PState.ALIVE⟩
        (by decide) (by decide) (by decide) (by decide) (by decide) (by decide)
        (by decide) (by decide) (by decide)
    rw [hrun]
    simp only [Except.toOption, Option.map_some']
    rw [hch, hex1 rfl, hpar 3 (by decide)]
    rfl
  · obtain ⟨s2, hrun, hch, hpar, hex1, _⟩ :=
      threadExit_teardown_reparent_publish nonRootExitSys2 2 5 99 ptcbLive
        ⟨1, [3], [], [5], 1, false, [], true, PState.ALIVE⟩
        ⟨1, [2], [], [9], 1, false, [], true, PState.ALIVE⟩
        (by decide) (by decide) (by decide) (by decide) (by decide) (by decide)
        (by decide) (by decide) (by decide)
    rw [hrun]
    simp only [Except.toOption, Option.map_some']
    rw [hch, hex1 rfl, hpar 3 (by decide)]
    rfl

end TinyosThreads
